import Mathlib

/-!
# PixelBoard photo pipeline — shallow embedding

A shallow embedding, in Lean 4, of the photo ingestion / thumbnail
pipeline and the album-membership routes of the PixelBoard repository:

* `src/routes/photos.js` — the S3/Lambda upload, get, delete and
  reprocess handlers, plus the legacy local-storage variant of the
  upload route that lives in the same file;
* the album routes (create, add-photos, remove-photos, delete);
* the image-processing Lambda handler (thumbnail derivation and
  thumbnail-key generation) composed with
  `LambdaImageProcessingService.processImage`;
* the multer / multer-s3 upload middleware configuration
  (mimetype filter, 10 MiB size limit, key generation);
* the `Photo` and `Album` mongoose schemas.

Conventions of the embedding:

* Mongo ObjectIds are strings.  The mongoose array methods and the
  route code compare ids after `toString()`, so string equality is the
  faithful comparison.
* Document collections are lists; `findById` is `List.find?` on the id
  field, `updateMany` is a `List.map` guarded by the filter.
* Remote calls (S3, Lambda, DynamoDB) succeed or fail
  nondeterministically; each route takes those outcomes as explicit
  boolean parameters.  On success the Lambda invocation returns the
  derived thumbnail key (the JSON transport envelope between the
  service and the Lambda is elided, per the component boundary of the
  specification).  Activity logging (`DynamoUserActivityService`)
  swallows its own errors and never affects a route, so it is not
  modelled.
* JavaScript string operations are mirrored at the `List Char` level
  so that every definition evaluates by kernel reduction.
-/

namespace PixelBoard

/-- JS `String.prototype.startsWith("image/")` — the multer fileFilter test. -/
def isImageMime (s : String) : Bool :=
  "image/".data.isPrefixOf s.data

/-- JS `String.prototype.trim()` (also the mongoose `trim: true` sanitizer):
drop whitespace from both ends. -/
def jsTrim (s : String) : String :=
  String.mk (((s.data.dropWhile Char.isWhitespace).reverse.dropWhile
    Char.isWhitespace).reverse)

/-- JS `imageKey.split('/')`: split on every slash, keeping empty pieces. -/
def splitOnSlash : List Char → List (List Char)
  | [] => [[]]
  | c :: rest =>
      let r := splitOnSlash rest
      if c = '/' then [] :: r
      else
        match r with
        | [] => [[c]]
        | h :: t => (c :: h) :: t

/-- JS `parts.join('/')`. -/
def joinSlash : List (List Char) → List Char
  | [] => []
  | [p] => p
  | p :: q :: ps => p ++ '/' :: joinSlash (q :: ps)

/-- Thumbnail-key generation of the image-processing Lambda handler
(and, identically, `getThumbnailKey` in the s3 service):
pop the filename off the original key and place the thumbnail at
`directory ++ "/thumbnails/thumb_" ++ filename`.  The key is a pure
function of the original key. -/
def thumbnailKeyOf (imageKey : String) : String :=
  let parts := splitOnSlash imageKey.data
  let filename := parts.getLastD []
  let dir := joinSlash parts.dropLast
  String.mk (dir ++ "/thumbnails/thumb_".data ++ filename)

/-- `processingStatus` enum of the `Photo` schema
(`enum: ['pending', 'processing', 'completed', 'failed']`,
`default: 'pending'`). -/
inductive ProcStatus
  | pending
  | processing
  | completed
  | failed
deriving DecidableEq

/-- A `Photo` document (mongoose `Photo` schema, S3 fields). -/
structure Photo where
  id : String
  title : String
  description : String
  filename : String
  originalName : String
  mimetype : String
  size : Nat
  s3Key : String
  s3Location : String
  thumbnailS3Key : Option String
  processingStatus : ProcStatus
  uploadedBy : String
  albums : List String
  views : Nat
deriving DecidableEq

/-- An `Album` document (mongoose `Album` schema). -/
structure Album where
  id : String
  title : String
  description : String
  createdBy : String
  photos : List String
  coverPhoto : Option String
deriving DecidableEq

/-- The shared mutable backing state: the two document collections and
the set of S3 object keys that currently hold a blob. -/
structure State where
  photos : List Photo
  albums : List Album
  blobs : List String
deriving DecidableEq

/-- `Photo.findById` -/
def findPhoto (st : State) (pid : String) : Option Photo :=
  st.photos.find? (fun p => p.id == pid)

/-- `Album.findById` -/
def findAlbum (st : State) (aid : String) : Option Album :=
  st.albums.find? (fun a => a.id == aid)

/-- `Photo.find({ _id: { $in: photoIds }, uploadedBy: requesterId })` —
the documents used by the ownership count checks of the album routes. -/
def ownedPhotosIn (st : State) (photoIds : List String)
    (requesterId : String) : List Photo :=
  st.photos.filter (fun p => photoIds.contains p.id && p.uploadedBy == requesterId)

/-- The multipart file received by the upload routes. -/
structure IncomingFile where
  originalname : String
  mimetype : String
  size : Nat
deriving DecidableEq

/-- `fileSize: 10 * 1024 * 1024` — the multer limit in both upload
configurations. -/
def MAX_FILE_SIZE : Nat := 10 * 1024 * 1024

/-- `imageProcessor.processImage(imageKey, ...)` composed with the Lambda
handler, `generateThumbnail: true`.  On success the Lambda resizes, stores
the thumbnail blob under the derived key and the service returns that key;
any failure of the remote invocation surfaces as a thrown error
(`Failed to process image`).  `ok` abstracts the nondeterministic success
of the remote call. -/
def processImage (st : State) (imageKey : String) (ok : Bool) :
    Except String (String × State) :=
  if ok then
    let tk := thumbnailKeyOf imageKey
    .ok (tk, { st with blobs := st.blobs ++ [tk] })
  else
    .error "Failed to process image"

/-- Result of the S3 upload route as seen by the HTTP client. -/
inductive UploadOutcome
  /-- the upload middleware aborted the request with an error
  (fileFilter rejection or size limit); no route handler ran -/
  | multerReject (msg : String)
  /-- HTTP 400 from the route validators -/
  | badRequest (msg : String)
  /-- HTTP 201, the created photo document in the response body -/
  | created (photo : Photo)
deriving DecidableEq

/-- `POST /upload` (S3/Lambda variant, `src/routes/photos.js` lines 17-89).
Middleware runs in route order: `auth`, then `upload.single('photo')`
(multer-s3: fileFilter on the mimetype, the 10 MiB limit, then the blob
write under the generated `key`), then the express-validator chain
`body('title').isLength({ min: 1 }).trim()` (the length test runs on the
raw value, the trim sanitizer after it), then the handler: Lambda
thumbnail derivation whose failure is swallowed (`thumbnailKey` stays
null), `photo.save()`, best-effort activity log, HTTP 201. -/
def uploadRoute (st : State) (userId title : String)
    (description : Option String) (file : Option IncomingFile)
    (key location newId : String) (lambdaOk : Bool) :
    UploadOutcome × State :=
  match file with
  | none =>
      if title.length < 1 then (.badRequest "Title is required", st)
      else (.badRequest "No file uploaded", st)
  | some f =>
      if ¬ isImageMime f.mimetype then
        (.multerReject "Only image files are allowed!", st)
      else if MAX_FILE_SIZE < f.size then
        (.multerReject "File too large", st)
      else
        let st1 := { st with blobs := st.blobs ++ [key] }
        if title.length < 1 then (.badRequest "Title is required", st1)
        else
          let (thumbnailKey, st2) :=
            match processImage st1 key lambdaOk with
            | .ok (tk, stOk) => (some tk, stOk)
            | .error _ => (none, st1)
          let photo : Photo :=
            { id := newId
              title := jsTrim title
              description := jsTrim (description.getD "")
              filename := key
              originalName := f.originalname
              mimetype := f.mimetype
              size := f.size
              s3Key := key
              s3Location := location
              thumbnailS3Key := thumbnailKey
              processingStatus := .pending
              uploadedBy := userId
              albums := []
              views := 0 }
          (.created photo, { st2 with photos := st2.photos ++ [photo] })

/-- The argument object of `new Photo({...})` in the legacy local-storage
upload route (no S3 fields; `thumbnailPath` instead). -/
structure LocalPhotoDoc where
  title : String
  description : String
  filename : String
  originalName : String
  mimetype : String
  size : Nat
  thumbnailPath : String
  uploadedBy : String
deriving DecidableEq

/-- Result of the legacy local-storage upload route. -/
inductive LocalUploadOutcome
  /-- request aborted by multer (fileFilter or size limit) -/
  | multerReject (msg : String)
  /-- HTTP 400 from the route validators -/
  | badRequest (msg : String)
  /-- HTTP 500 `Failed to generate thumbnail` -/
  | thumbFailed
  /-- HTTP 201 -/
  | created (doc : LocalPhotoDoc)
deriving DecidableEq

/-- Backing state of the local-storage variant: saved documents and the
files present under `uploads/`. -/
structure LocalState where
  docs : List LocalPhotoDoc
  files : List String
deriving DecidableEq

/-- `POST /upload` (legacy local-storage variant in the same routes file,
lines 321-383).  multer disk storage writes the original under
`uploads/` before the handler runs; the same title validator applies;
then `generateThumbnail` (sharp, 300x300 cover/center, jpeg quality 80)
runs against the stored file.  On derivation failure the handler
unlinks the stored original and returns HTTP 500
(`Failed to generate thumbnail`) — it does not persist a record. -/
def localUploadRoute (st : LocalState) (userId title : String)
    (description : Option String) (file : Option IncomingFile)
    (storedFilename : String) (thumbOk : Bool) :
    LocalUploadOutcome × LocalState :=
  match file with
  | none =>
      if title.length < 1 then (.badRequest "Title is required", st)
      else (.badRequest "No file uploaded", st)
  | some f =>
      if ¬ isImageMime f.mimetype then
        (.multerReject "Only image files are allowed", st)
      else if MAX_FILE_SIZE < f.size then
        (.multerReject "File too large", st)
      else
        let st1 := { st with files := st.files ++ ["uploads/" ++ storedFilename] }
        if title.length < 1 then (.badRequest "Title is required", st1)
        else if ¬ thumbOk then
          (.thumbFailed,
           { st1 with files := st1.files.erase ("uploads/" ++ storedFilename) })
        else
          let doc : LocalPhotoDoc :=
            { title := jsTrim title
              description := jsTrim (description.getD "")
              filename := storedFilename
              originalName := f.originalname
              mimetype := f.mimetype
              size := f.size
              thumbnailPath := "/uploads/thumbnails/thumb_" ++ storedFilename
              uploadedBy := userId }
          (.created doc,
           { st1 with
              docs := st1.docs ++ [doc]
              files := st1.files ++ ["uploads/thumbnails/thumb_" ++ storedFilename] })

/-- `GET /:id` — HTTP 404 when the id resolves to no photo, otherwise
HTTP 200 with the fields of the photo document (no state change). -/
def getPhotoRoute (st : State) (pid : String) : Option Photo :=
  findPhoto st pid

/-- `POST /:id/reprocess` (lines 230-262): 404 when absent, 403 unless
the requester owns the photo, then a fresh Lambda derivation against the
already-stored original (`photo.s3Key`); a derivation failure propagates
as HTTP 500 with nothing saved; on success the photo record is saved
with the new key and HTTP 200 returns `thumbnailS3Key`. -/
def reprocessRoute (st : State) (pid requesterId : String) (lambdaOk : Bool) :
    (Nat × Option String) × State :=
  match findPhoto st pid with
  | none => ((404, none), st)
  | some photo =>
      if photo.uploadedBy ≠ requesterId then ((403, none), st)
      else
        match processImage st photo.s3Key lambdaOk with
        | .error _ => ((500, none), st)
        | .ok (tk, st1) =>
            let updated := { photo with thumbnailS3Key := some tk }
            (((200 : Nat), some tk),
             { st1 with
                photos := st1.photos.map (fun p => if p.id == pid then updated else p) })

/-- `DELETE /:id` (lines 183-227): 404 when absent, 403 unless the
requester owns the photo; then best-effort S3 deletion of the original
and (when present) thumbnail blobs — an S3 failure is logged and record
deletion proceeds — then `findByIdAndDelete` and HTTP 200. -/
def deletePhotoRoute (st : State) (pid requesterId : String) (s3Ok : Bool) :
    Nat × State :=
  match findPhoto st pid with
  | none => (404, st)
  | some photo =>
      if photo.uploadedBy ≠ requesterId then (403, st)
      else
        let blobs1 :=
          if s3Ok then
            let b := st.blobs.erase photo.s3Key
            match photo.thumbnailS3Key with
            | some tk => b.erase tk
            | none => b
          else st.blobs
        (200,
         { st with
            photos := st.photos.filter (fun p => p.id != pid)
            blobs := blobs1 })

/-- `POST /create` (album routes, lines 146-210): title validator; when a
nonempty `photoIds` array is supplied, the ownership count check
(`photos.length !== photoIds.length` gives HTTP 400 with nothing
written); then the album document is inserted with
`coverPhoto = photoIds[0]` when present, and every photo in `photoIds`
gets the new album pushed onto its `albums` array. -/
def createAlbumRoute (st : State) (requesterId title : String)
    (description : Option String) (photoIds : Option (List String))
    (newAlbumId : String) : Nat × State :=
  if title.length < 1 then (400, st)
  else
    let pids := photoIds.getD []
    if pids ≠ [] ∧ (ownedPhotosIn st pids requesterId).length ≠ pids.length then
      (400, st)
    else
      let album : Album :=
        { id := newAlbumId
          title := jsTrim title
          description := jsTrim (description.getD "")
          createdBy := requesterId
          photos := pids
          coverPhoto := pids.head? }
      (201,
       { st with
          albums := st.albums ++ [album]
          photos := st.photos.map (fun p =>
            if pids.contains p.id then { p with albums := p.albums ++ [newAlbumId] }
            else p) })

/-- `POST /:id/add-photos` (lines 302-355): 404 / owner-only 403 on the
album; the ownership count check (400, nothing written); then
`newPhotoIds = photoIds.filter(id => !album.photos.includes(id))` is
appended to the membership, the cover photo is set to `newPhotoIds[0]`
when it was unset and something new arrived, and the new members get the
album pushed onto their `albums` arrays. -/
def addPhotosRoute (st : State) (albumId requesterId : String)
    (photoIds : List String) : Nat × State :=
  match findAlbum st albumId with
  | none => (404, st)
  | some album =>
      if album.createdBy ≠ requesterId then (403, st)
      else if (ownedPhotosIn st photoIds requesterId).length ≠ photoIds.length then
        (400, st)
      else
        let newIds := photoIds.filter (fun pid => !(album.photos.contains pid))
        let album1 :=
          { album with
              photos := album.photos ++ newIds
              coverPhoto :=
                match album.coverPhoto with
                | some c => some c
                | none => newIds.head? }
        (200,
         { st with
            albums := st.albums.map (fun a => if a.id == albumId then album1 else a)
            photos := st.photos.map (fun p =>
              if newIds.contains p.id then { p with albums := p.albums ++ [albumId] }
              else p) })

/-- `POST /:id/remove-photos` (lines 358-400): 404 / owner-only 403 on
the album — there is no ownership check on `photoIds` in this route;
the membership is filtered, the cover photo is re-derived
(`album.photos[0]` or null) when the removed set contained it, and the
album reference is pulled from every photo listed in `photoIds`. -/
def removePhotosRoute (st : State) (albumId requesterId : String)
    (photoIds : List String) : Nat × State :=
  match findAlbum st albumId with
  | none => (404, st)
  | some album =>
      if album.createdBy ≠ requesterId then (403, st)
      else
        let remaining := album.photos.filter (fun pid => !(photoIds.contains pid))
        let album1 :=
          { album with
              photos := remaining
              coverPhoto :=
                match album.coverPhoto with
                | some c => if photoIds.contains c then remaining.head? else some c
                | none => none }
        (200,
         { st with
            albums := st.albums.map (fun a => if a.id == albumId then album1 else a)
            photos := st.photos.map (fun p =>
              if photoIds.contains p.id then
                { p with albums := p.albums.filter (fun aid => aid != albumId) }
              else p) })

/-- `DELETE /:id` (album routes, lines 403-429): 404 / owner-only 403;
pulls the album reference from every member photo, then deletes the
album document. -/
def deleteAlbumRoute (st : State) (albumId requesterId : String) :
    Nat × State :=
  match findAlbum st albumId with
  | none => (404, st)
  | some album =>
      if album.createdBy ≠ requesterId then (403, st)
      else
        (200,
         { st with
            photos := st.photos.map (fun p =>
              if album.photos.contains p.id then
                { p with albums := p.albums.filter (fun aid => aid != albumId) }
              else p)
            albums := st.albums.filter (fun a => a.id != albumId) })

/-- One request against the S3-backed application (each state-mutating
route embedded above, with the outcomes of its remote calls). -/
inductive Op
  | upload (userId title : String) (description : Option String)
      (file : Option IncomingFile) (key location newId : String) (lambdaOk : Bool)
  | reprocess (pid requesterId : String) (lambdaOk : Bool)
  | deletePhoto (pid requesterId : String) (s3Ok : Bool)
  | createAlbum (requesterId title : String) (description : Option String)
      (photoIds : Option (List String)) (newAlbumId : String)
  | addPhotos (albumId requesterId : String) (photoIds : List String)
  | removePhotos (albumId requesterId : String) (photoIds : List String)
  | deleteAlbum (albumId requesterId : String)

/-- The state reached by executing one request. -/
def applyOp (st : State) : Op → State
  | .upload u t d f k l n ok => (uploadRoute st u t d f k l n ok).2
  | .reprocess pid r ok => (reprocessRoute st pid r ok).2
  | .deletePhoto pid r ok => (deletePhotoRoute st pid r ok).2
  | .createAlbum r t d pids naid => (createAlbumRoute st r t d pids naid).2
  | .addPhotos aid r pids => (addPhotosRoute st aid r pids).2
  | .removePhotos aid r pids => (removePhotosRoute st aid r pids).2
  | .deleteAlbum aid r => (deleteAlbumRoute st aid r).2

/-- The thumbnail key produced by the successful derivation of a request,
when the request carries one: an upload derives against the freshly
stored original, a reprocess against the already-stored original of the
target photo. -/
def opDerivedKey (st : State) : Op → Option String
  | .upload _ _ _ _ key _ _ ok => if ok then some (thumbnailKeyOf key) else none
  | .reprocess pid _ ok =>
      if ok then (findPhoto st pid).map (fun p => thumbnailKeyOf p.s3Key) else none
  | _ => none

/-- The generated Mongo id of an uploaded photo does not collide with an
existing document (uniqueness of `_id`). -/
def opFresh (st : State) : Op → Prop
  | .upload _ _ _ _ _ _ newId _ => ∀ p ∈ st.photos, p.id ≠ newId
  | _ => True

/-- The processing-status transition relation of the specification:
a status may stay put, go `pending → processing`, or go
`processing → completed / failed`. -/
def allowedTransition (a b : ProcStatus) : Prop :=
  a = b ∨ (a = .pending ∧ b = .processing) ∨
    (a = .processing ∧ (b = .completed ∨ b = .failed))

/-- Well-formedness of the backing state: document ids are unique per
collection and album membership lists carry no duplicates. -/
structure WF (st : State) : Prop where
  photosNodup : (st.photos.map Photo.id).Nodup
  albumsNodup : (st.albums.map Album.id).Nodup
  albumPhotosNodup : ∀ a ∈ st.albums, a.photos.Nodup

/-- JS `v || d` for a numeric option: `0`, `null` and `undefined` are
falsy, so they yield the default. -/
def jsOrNat (v : Option Nat) (d : Nat) : Nat :=
  match v with
  | none => d
  | some q => if q = 0 then d else q

/-- JS `v || d` for a string option: `""`, `null` and `undefined` are
falsy, so they yield the default. -/
def jsOrStr (v : Option String) (d : String) : String :=
  match v with
  | none => d
  | some s => if s = "" then d else s

/-- The `options` object accepted by the Lambda handler for thumbnail
generation. -/
structure ThumbOptions where
  thumbnailSize : Option (Nat × Nat)
  quality : Option Nat
  format : Option String

/-- The output-encoding step appended to the sharp resize chain. -/
inductive ThumbEncoding
  | jpeg (quality : Nat)
  | png (quality : Nat)
  | noReencode
deriving DecidableEq

/-- The sharp processing chain the Lambda handler builds. -/
structure ThumbPipeline where
  width : Nat
  height : Nat
  fit : String
  position : String
  encoding : ThumbEncoding
deriving DecidableEq

/-- The thumbnail branch of the Lambda handler (lines 40-70): defaults
`thumbnailSize = 300x300`, `quality = 80`, `format = 'jpeg'` (JS `||`
defaulting); the resize is always `fit: 'cover', position: 'center'` at
the target dimensions; `format === 'jpeg'` and `format === 'png'` add
the matching encoder at the requested quality, any other format resizes
with no explicit re-encoding step. -/
def thumbnailPipeline (opts : ThumbOptions) : ThumbPipeline :=
  let size := opts.thumbnailSize.getD (300, 300)
  let quality := jsOrNat opts.quality 80
  let format := jsOrStr opts.format "jpeg"
  { width := size.1
    height := size.2
    fit := "cover"
    position := "center"
    encoding :=
      if format = "jpeg" then .jpeg quality
      else if format = "png" then .png quality
      else .noReencode }

/-- Projection of the thumbnail key out of an upload response body
(`photo.thumbnailS3Key` in the 201 JSON), used to state concrete
round-trip facts. -/
def outcomeThumb : UploadOutcome → Option (Option String)
  | .created p => some p.thumbnailS3Key
  | _ => none

/-- Fixture: a stored photo owned by alice, as the S3 upload route
persists it. -/
def pSunset : Photo :=
  { id := "p1"
    title := "Sunset"
    description := ""
    filename := "photos/1-a.jpg"
    originalName := "sunset.jpg"
    mimetype := "image/jpeg"
    size := 1000
    s3Key := "photos/1-a.jpg"
    s3Location := "https://bucket/photos/1-a.jpg"
    thumbnailS3Key := none
    processingStatus := .pending
    uploadedBy := "alice"
    albums := []
    views := 0 }

/-- Fixture: the upload of `pSunset` by alice into an empty store, with
a successful Lambda derivation. -/
def c3Upload : UploadOutcome × State :=
  uploadRoute ⟨[], [], []⟩ "alice" "Sunset" none
    (some ⟨"sunset.jpg", "image/jpeg", 1000⟩) "photos/1-a.jpg"
    "https://bucket/photos/1-a.jpg" "p1" true

/-- Fixture: an empty album owned by alice. -/
def albEmpty : Album :=
  { id := "a1"
    title := "Alb"
    description := ""
    createdBy := "alice"
    photos := []
    coverPhoto := none }

/-- Fixture: the same album after `pSunset` became its only member and
cover. -/
def albWithP1 : Album :=
  { albEmpty with photos := ["p1"], coverPhoto := some "p1" }

/-- Fixture: alice owns one photo and one empty album. -/
def stAlbum : State :=
  ⟨[pSunset], [albEmpty], ["photos/1-a.jpg"]⟩

/-- Fixture: alice owns one photo, member and cover of her album. -/
def stAlbumP1 : State :=
  ⟨[pSunset], [albWithP1], ["photos/1-a.jpg"]⟩

/-- The album document a successful add-photos call saves: the ids not
already members are appended, and the cover photo is set to the first
new member when it was unset. -/
def addedAlbum (album0 : Album) (pids : List String) : Album :=
  { album0 with
      photos := album0.photos ++ pids.filter (fun pid => !(album0.photos.contains pid))
      coverPhoto :=
        match album0.coverPhoto with
        | some c => some c
        | none => (pids.filter (fun pid => !(album0.photos.contains pid))).head? }

/-- The state a successful add-photos call leaves behind: the album is
replaced by `addedAlbum` and the new members receive the album
reference. -/
def addedState (st : State) (aid : String) (album0 : Album)
    (pids : List String) : State :=
  { st with
      albums := st.albums.map (fun a =>
        if a.id == aid then addedAlbum album0 pids else a)
      photos := st.photos.map (fun p =>
        if (pids.filter (fun pid => !(album0.photos.contains pid))).contains p.id then
          { p with albums := p.albums ++ [aid] }
        else p) }

/-- The fields of a photo document no route is allowed to rewrite in
place (identity, owner, processing status) plus the thumbnail key,
related across an update. -/
def PhotoMeta (p q : Photo) : Prop :=
  q.id = p.id ∧ q.uploadedBy = p.uploadedBy ∧
  q.processingStatus = p.processingStatus ∧ q.thumbnailS3Key = p.thumbnailS3Key

/-- The record invariants of the specification, for one photo document
visible after one operation: its processing status is a member of the
schema enum; when the id existed before the operation, the owner
reference is unchanged, the status moved only along
`pending → processing → completed / failed` (in fact it never moves),
and the thumbnail key either kept its value or was overwritten by the
key of the successful derivation performed by the operation; when the
id is new, the status is `pending` and the thumbnail key is null unless
the derivation of the operation succeeded with exactly that key. -/
def InvariantStep (st : State) (op : Op) (p' : Photo) : Prop :=
  (p'.processingStatus = .pending ∨ p'.processingStatus = .processing ∨
   p'.processingStatus = .completed ∨ p'.processingStatus = .failed) ∧
  (match findPhoto st p'.id with
   | some p =>
       p'.uploadedBy = p.uploadedBy ∧
       allowedTransition p.processingStatus p'.processingStatus ∧
       (p'.thumbnailS3Key = p.thumbnailS3Key ∨
        ∃ k, opDerivedKey st op = some k ∧ p'.thumbnailS3Key = some k)
   | none =>
       p'.processingStatus = .pending ∧
       (p'.thumbnailS3Key = none ∨
        ∃ k, opDerivedKey st op = some k ∧ p'.thumbnailS3Key = some k))

/-- Claim C7: a delete request by a requester who does not own the photo
fails with HTTP 403, the state (records and blobs) is unchanged, and the
photo is still retrievable by id afterwards. -/
theorem delete_by_non_owner_forbidden (st : State) (pid r : String) (s3Ok : Bool)
    (photo : Photo) (hfind : findPhoto st pid = some photo)
    (hnotown : photo.uploadedBy ≠ r) :
    deletePhotoRoute st pid r s3Ok = (403, st) ∧
    getPhotoRoute st pid = some photo := by
  unfold deletePhotoRoute getPhotoRoute
  rw [hfind]
  simp [hnotown, hfind]

/-- Witness for C7: bob cannot delete the photo alice uploaded; it stays
retrievable. -/
theorem delete_by_non_owner_forbidden_witness :
    deletePhotoRoute ⟨[pSunset], [], ["photos/1-a.jpg"]⟩ "p1" "bob" true
        = (403, ⟨[pSunset], [], ["photos/1-a.jpg"]⟩) ∧
    getPhotoRoute ⟨[pSunset], [], ["photos/1-a.jpg"]⟩ "p1" = some pSunset :=
  delete_by_non_owner_forbidden _ "p1" "bob" true pSunset (by decide) (by decide)

/-- Claim C1 (amended): in the S3/Lambda upload route, a validated upload
whose original blob is stored still returns HTTP 201 when the thumbnail
derivation fails; the photo record is persisted with a null thumbnail
key.  (The legacy local-storage upload variant instead aborts with
HTTP 500 and removes the stored original — see the counterexample.) -/
theorem upload_swallows_derivation_failure (st : State) (u title : String)
    (d : Option String) (f : IncomingFile) (key loc nid : String)
    (ht : 1 ≤ title.length) (hm : isImageMime f.mimetype = true)
    (hs : f.size ≤ MAX_FILE_SIZE) :
    ∃ photo, uploadRoute st u title d (some f) key loc nid false
        = (.created photo,
           { st with blobs := st.blobs ++ [key], photos := st.photos ++ [photo] }) ∧
      photo.thumbnailS3Key = none := by
  refine ⟨⟨nid, jsTrim title, jsTrim (d.getD ""), key, f.originalname, f.mimetype,
    f.size, key, loc, none, .pending, u, [], 0⟩, ?_, rfl⟩
  unfold uploadRoute processImage
  simp [hm, Nat.not_lt.mpr hs, Nat.not_lt.mpr ht]

/-- Witness for C1: alice uploads a 1000-byte jpeg titled Sunset, the
Lambda call fails, the route still persists the record thumbnail-less. -/
theorem upload_swallows_derivation_failure_witness :
    ∃ photo, uploadRoute ⟨[], [], []⟩ "alice" "Sunset" none
        (some ⟨"sunset.jpg", "image/jpeg", 1000⟩) "photos/1-a.jpg" "loc" "p1" false
        = (.created photo,
           { State.mk [] [] [] with
              blobs := [] ++ ["photos/1-a.jpg"], photos := [] ++ [photo] }) ∧
      photo.thumbnailS3Key = none :=
  upload_swallows_derivation_failure ⟨[], [], []⟩ "alice" "Sunset" none
    ⟨"sunset.jpg", "image/jpeg", 1000⟩ "photos/1-a.jpg" "loc" "p1"
    (by decide) (by decide) (by decide)

/-- Claim C1 counterexample: in the local-storage upload variant, a
validated upload (title Sunset, image mimetype, small size) whose
original was stored by the disk middleware returns the 500
thumbnail-failure response — not HTTP 201 — when derivation fails, the
stored original is unlinked, and no record is persisted. -/
theorem local_upload_derivation_failure_cex :
    localUploadRoute ⟨[], []⟩ "alice" "Sunset" none
        (some ⟨"sunset.jpg", "image/jpeg", 1000⟩) "123-sunset.jpg" false
      = (.thumbFailed, ⟨[], []⟩) ∧
    ∀ doc : LocalPhotoDoc, LocalUploadOutcome.thumbFailed ≠ .created doc := by
  exact ⟨by decide, fun doc h => by cases h⟩

/-- Claim C2 (amended): the upload middleware rejects a non-image
mimetype, and a size strictly over 10 MiB, before any blob write and
before any record is created; an empty title is rejected with a 400
validation error and no record is created, but only after the original
blob has already been written by the multer-s3 middleware; an upload of
size exactly 10 MiB is not rejected by the size limit. -/
theorem upload_validation_boundaries (st : State) (u title : String)
    (d : Option String) (f : IncomingFile) (key loc nid : String) (ok : Bool) :
    (isImageMime f.mimetype = false →
      uploadRoute st u title d (some f) key loc nid ok
        = (.multerReject "Only image files are allowed!", st)) ∧
    (isImageMime f.mimetype = true → MAX_FILE_SIZE < f.size →
      uploadRoute st u title d (some f) key loc nid ok
        = (.multerReject "File too large", st)) ∧
    (isImageMime f.mimetype = true → f.size ≤ MAX_FILE_SIZE → title.length = 0 →
      uploadRoute st u title d (some f) key loc nid ok
        = (.badRequest "Title is required", { st with blobs := st.blobs ++ [key] })) ∧
    (isImageMime f.mimetype = true → f.size = MAX_FILE_SIZE → 1 ≤ title.length →
      ∃ photo, (uploadRoute st u title d (some f) key loc nid ok).1
        = .created photo) := by
  refine ⟨fun hm => ?_, fun hm hsz => ?_, fun hm hsz ht => ?_, fun hm hsz ht => ?_⟩
  · unfold uploadRoute
    simp [hm]
  · unfold uploadRoute
    simp [hm, hsz]
  · unfold uploadRoute
    simp [hm, Nat.not_lt.mpr hsz, ht]
  · unfold uploadRoute processImage
    cases ok <;> simp [hm, hsz, Nat.not_lt.mpr ht]

/-- Witness for C2: a 10 MiB jpeg titled Nice passes the size limit; the
same upload with an empty title is answered 400 after the blob write. -/
theorem upload_validation_boundaries_witness :
    (uploadRoute ⟨[], [], []⟩ "alice" "" none
        (some ⟨"a.jpg", "image/jpeg", 10485760⟩) "photos/9-z.jpg" "loc" "p2" true
      = (.badRequest "Title is required",
         { State.mk [] [] [] with blobs := [] ++ ["photos/9-z.jpg"] })) ∧
    (∃ photo, (uploadRoute ⟨[], [], []⟩ "alice" "Nice" none
        (some ⟨"a.jpg", "image/jpeg", 10485760⟩) "photos/9-z.jpg" "loc" "p2" true).1
      = .created photo) :=
  ⟨(upload_validation_boundaries ⟨[], [], []⟩ "alice" "" none
      ⟨"a.jpg", "image/jpeg", 10485760⟩ "photos/9-z.jpg" "loc" "p2" true).2.2.1
      (by decide) (by decide) (by decide),
   (upload_validation_boundaries ⟨[], [], []⟩ "alice" "Nice" none
      ⟨"a.jpg", "image/jpeg", 10485760⟩ "photos/9-z.jpg" "loc" "p2" true).2.2.2
      (by decide) (by decide) (by decide)⟩

/-- Claim C2 counterexample: an upload with an empty title (a validation
failure) and a valid image file gets the 400 validation response, but a
blob has been written: the multer-s3 middleware stored the original
before the title validator ran, so it is not the case that nothing is
persisted. -/
theorem upload_empty_title_blob_written_cex :
    uploadRoute ⟨[], [], []⟩ "alice" "" none
        (some ⟨"a.jpg", "image/jpeg", 5⟩) "photos/9-z.jpg" "loc" "p1" true
      = (.badRequest "Title is required", ⟨[], [], ["photos/9-z.jpg"]⟩) ∧
    (⟨[], [], ["photos/9-z.jpg"]⟩ : State).blobs ≠ [] := by
  exact ⟨by decide, by decide⟩

/-- Claim C3 (amended): after a successful reprocess call by the owner,
the thumbnail key stored on the photo (and returned by a subsequent
fetch) is the newly derived key `thumbnailKeyOf photo.s3Key`.  Because
the derived key is a pure function of the original key, it is NOT
distinct from the previous thumbnail key whenever that one was derived
from the same original — reprocessing overwrites the same S3 key. -/
theorem reprocess_stores_derived_key (st : State) (pid r : String)
    (photo : Photo) (hfind : findPhoto st pid = some photo)
    (hown : photo.uploadedBy = r) :
    (reprocessRoute st pid r true).1 = (200, some (thumbnailKeyOf photo.s3Key)) ∧
    (getPhotoRoute (reprocessRoute st pid r true).2 pid).map Photo.thumbnailS3Key
      = some (some (thumbnailKeyOf photo.s3Key)) := by
  have h1 : st.photos.find? (fun p => p.id == pid) = some photo := hfind
  have hpid : (photo.id == pid) = true := by
    have h2 := List.find?_some h1
    simpa using h2
  have hres : reprocessRoute st pid r true
      = ((200, some (thumbnailKeyOf photo.s3Key)),
         { st with
            blobs := st.blobs ++ [thumbnailKeyOf photo.s3Key]
            photos := st.photos.map (fun p =>
              if p.id == pid then
                { photo with thumbnailS3Key := some (thumbnailKeyOf photo.s3Key) }
              else p) }) := by
    unfold reprocessRoute processImage
    rw [hfind]
    simp [hown]
  refine ⟨by rw [hres], ?_⟩
  rw [hres]
  unfold getPhotoRoute findPhoto
  simp only [List.find?_map]
  have hpred : ((fun p : Photo => p.id == pid) ∘ (fun p : Photo =>
      if p.id == pid then
        { photo with thumbnailS3Key := some (thumbnailKeyOf photo.s3Key) }
      else p)) = fun p : Photo => p.id == pid := by
    funext p
    by_cases hp : (p.id == pid) = true
    · have hp1 : p.id = pid := by simpa using hp
      have hp2 : photo.id = pid := by simpa using hpid
      simp [hp1, hp2]
    · simp [Function.comp, hp]
  rw [hpred]
  have hfind' : st.photos.find? (fun p => p.id == pid) = some photo := hfind
  rw [hfind']
  have hp2 : photo.id = pid := by simpa using hpid
  simp [hp2]

/-- Witness for C3: reprocessing the stored Sunset photo succeeds and the
stored and fetched key is the derived one. -/
theorem reprocess_stores_derived_key_witness :
    (reprocessRoute ⟨[pSunset], [], ["photos/1-a.jpg"]⟩ "p1" "alice" true).1
        = (200, some (thumbnailKeyOf pSunset.s3Key)) ∧
    (getPhotoRoute (reprocessRoute ⟨[pSunset], [], ["photos/1-a.jpg"]⟩ "p1" "alice" true).2
        "p1").map Photo.thumbnailS3Key
      = some (some (thumbnailKeyOf pSunset.s3Key)) :=
  reprocess_stores_derived_key ⟨[pSunset], [], ["photos/1-a.jpg"]⟩ "p1" "alice"
    pSunset (by decide) (by decide)

/-- Claim C3 counterexample: alice uploads Sunset (derivation succeeds,
thumbnail key `photos/thumbnails/thumb_1-a.jpg`), then reprocesses it
successfully; the new key returned and stored is exactly the key the
photo already had — it is not distinct from the prior value. -/
theorem reprocess_key_not_distinct_cex :
    outcomeThumb c3Upload.1 = some (some "photos/thumbnails/thumb_1-a.jpg") ∧
    (reprocessRoute c3Upload.2 "p1" "alice" true).1
      = (200, some "photos/thumbnails/thumb_1-a.jpg") ∧
    ((getPhotoRoute (reprocessRoute c3Upload.2 "p1" "alice" true).2 "p1").map
        Photo.thumbnailS3Key)
      = some (some "photos/thumbnails/thumb_1-a.jpg") := by
  refine ⟨by decide, by decide, by decide⟩

/-- Claim C8: for every derivation request (any requested dimensions, a
nonzero requested quality, a nonempty requested format — JS treats `0`
and the empty string as an absent option), the Lambda thumbnail branch
resizes with cover fit, centered, at the target dimensions; a `jpeg`
format request is encoded as JPEG at the requested quality, a `png`
request as PNG at the requested quality, and any other format resizes
with no explicit re-encoding step. -/
theorem thumbnail_deriver_formats (w h q : Nat) (fmt : String)
    (hq : q ≠ 0) (hfmt : fmt ≠ "") :
    ((thumbnailPipeline ⟨some (w, h), some q, some fmt⟩).fit = "cover" ∧
     (thumbnailPipeline ⟨some (w, h), some q, some fmt⟩).position = "center" ∧
     (thumbnailPipeline ⟨some (w, h), some q, some fmt⟩).width = w ∧
     (thumbnailPipeline ⟨some (w, h), some q, some fmt⟩).height = h) ∧
    (fmt = "jpeg" →
      (thumbnailPipeline ⟨some (w, h), some q, some fmt⟩).encoding = .jpeg q) ∧
    (fmt = "png" →
      (thumbnailPipeline ⟨some (w, h), some q, some fmt⟩).encoding = .png q) ∧
    (fmt ≠ "jpeg" → fmt ≠ "png" →
      (thumbnailPipeline ⟨some (w, h), some q, some fmt⟩).encoding = .noReencode) := by
  unfold thumbnailPipeline jsOrNat jsOrStr
  refine ⟨by simp, fun hj => ?_, fun hp => ?_, fun hj hp => ?_⟩
  · simp [hj, hq, hfmt]
  · simp [hp, hq, hfmt]
  · simp [hj, hp, hq, hfmt]

/-- Witness for C8: a 300x300 quality-80 request — png is PNG-encoded at
quality 80, webp falls through to the no-re-encoding branch. -/
theorem thumbnail_deriver_formats_witness :
    ((thumbnailPipeline ⟨some (300, 300), some 80, some "png"⟩).encoding
        = .png 80) ∧
    ((thumbnailPipeline ⟨some (300, 300), some 80, some "webp"⟩).encoding
        = .noReencode) :=
  ⟨(thumbnail_deriver_formats 300 300 80 "png" (by decide) (by decide)).2.2.1 rfl,
   (thumbnail_deriver_formats 300 300 80 "webp" (by decide) (by decide)).2.2.2
     (by decide) (by decide)⟩

/-- A find by key over a key-nodup list locates exactly a given member. -/
theorem find?_eq_of_key_nodup {l : List Photo}
    (hnd : (l.map Photo.id).Nodup) {x : Photo} (hx : x ∈ l) :
    l.find? (fun y => y.id == x.id) = some x := by
  induction l with
  | nil => cases hx
  | cons a t ih =>
      rcases List.mem_cons.mp hx with rfl | hx'
      · exact List.find?_cons_of_pos t (by simp)
      · have hnd' : a.id ∉ t.map Photo.id ∧ (t.map Photo.id).Nodup := by
          rw [List.map_cons] at hnd
          exact List.nodup_cons.mp hnd
        have hne : a.id ≠ x.id := by
          intro he
          exact hnd'.1 (he ▸ List.mem_map_of_mem Photo.id hx')
        rw [List.find?_cons_of_neg t (by simpa using hne)]
        exact ih hnd'.2 hx'

/-- The ownership count check passes exactly when every listed id is a
distinct photo owned by the requester: with no duplicate ids and full
ownership the counts agree. -/
theorem ownedPhotosIn_length_eq (st : State) (pids : List String) (r : String)
    (hwf : (st.photos.map Photo.id).Nodup) (hnd : pids.Nodup)
    (howned : ∀ pid ∈ pids, ∃ p, p ∈ st.photos ∧ p.id = pid ∧ p.uploadedBy = r) :
    (ownedPhotosIn st pids r).length = pids.length := by
  have hsubl : (ownedPhotosIn st pids r).Sublist st.photos :=
    List.filter_sublist st.photos
  have hFnd : ((ownedPhotosIn st pids r).map Photo.id).Nodup :=
    (hsubl.map Photo.id).nodup hwf
  have hsub1 : ((ownedPhotosIn st pids r).map Photo.id) ⊆ pids := by
    intro x hx
    rcases List.mem_map.mp hx with ⟨p, hpF, rfl⟩
    have hcond := List.of_mem_filter hpF
    rcases (Bool.and_eq_true _ _).mp hcond with ⟨h1, _⟩
    simpa using h1
  have hsub2 : pids ⊆ (ownedPhotosIn st pids r).map Photo.id := by
    intro pid hpid
    obtain ⟨p, hp, hid, hub⟩ := howned pid hpid
    have hpF : p ∈ ownedPhotosIn st pids r := by
      refine List.mem_filter.mpr ⟨hp, ?_⟩
      simp [hid, hub, hpid]
    exact hid ▸ List.mem_map_of_mem Photo.id hpF
  have h1 := (List.subperm_of_subset hFnd hsub1).length_le
  have h2 := (List.subperm_of_subset hnd hsub2).length_le
  have := Nat.le_antisymm h1 h2
  simpa [List.length_map] using this

/-- When some listed id resolves to no photo owned by the requester, the
ownership count comes up strictly short. -/
theorem ownedPhotosIn_length_lt_of_unowned (st : State) (pids : List String)
    (r bad : String) (hwf : (st.photos.map Photo.id).Nodup) (hbad : bad ∈ pids)
    (hno : ¬ ∃ p, p ∈ st.photos ∧ p.id = bad ∧ p.uploadedBy = r) :
    (ownedPhotosIn st pids r).length < pids.length := by
  have hsubl : (ownedPhotosIn st pids r).Sublist st.photos :=
    List.filter_sublist st.photos
  have hFnd : ((ownedPhotosIn st pids r).map Photo.id).Nodup :=
    (hsubl.map Photo.id).nodup hwf
  have hsub : ((ownedPhotosIn st pids r).map Photo.id)
      ⊆ pids.filter (fun x => !(x == bad)) := by
    intro x hx
    rcases List.mem_map.mp hx with ⟨p, hpF, rfl⟩
    have hcond := List.of_mem_filter hpF
    rcases (Bool.and_eq_true _ _).mp hcond with ⟨h1, h2⟩
    refine List.mem_filter.mpr ⟨by simpa using h1, ?_⟩
    have hne : p.id ≠ bad := by
      intro he
      exact hno ⟨p, List.mem_of_mem_filter hpF, he, by simpa using h2⟩
    simpa using hne
  have hlt : (pids.filter (fun x => !(x == bad))).length < pids.length :=
    List.length_filter_lt_length_iff_exists.mpr ⟨bad, hbad, by simp⟩
  have hle := (List.subperm_of_subset hFnd hsub).length_le
  have := Nat.lt_of_le_of_lt hle hlt
  simpa [List.length_map] using this

/-- When the listed ids contain a duplicate, the ownership count comes up
strictly short even under full ownership: distinct documents are counted
against a longer id list. -/
theorem ownedPhotosIn_length_lt_of_dup (st : State) (pids : List String)
    (r : String) (hwf : (st.photos.map Photo.id).Nodup)
    (hdup : ¬ pids.Nodup) :
    (ownedPhotosIn st pids r).length < pids.length := by
  have hsubl : (ownedPhotosIn st pids r).Sublist st.photos :=
    List.filter_sublist st.photos
  have hFnd : ((ownedPhotosIn st pids r).map Photo.id).Nodup :=
    (hsubl.map Photo.id).nodup hwf
  have hsub : ((ownedPhotosIn st pids r).map Photo.id) ⊆ pids.dedup := by
    intro x hx
    rcases List.mem_map.mp hx with ⟨p, hpF, rfl⟩
    have hcond := List.of_mem_filter hpF
    rcases (Bool.and_eq_true _ _).mp hcond with ⟨h1, _⟩
    exact List.mem_dedup.mpr (by simpa using h1)
  have hle := (List.subperm_of_subset hFnd hsub).length_le
  have hlt : pids.dedup.length < pids.length := by
    rcases Nat.lt_or_ge pids.dedup.length pids.length with h | h
    · exact h
    · exfalso
      have heq : pids.dedup.length = pids.length :=
        Nat.le_antisymm (pids.dedup_sublist.length_le) h
      have : pids.dedup = pids := (pids.dedup_sublist).eq_of_length heq
      exact hdup (this ▸ pids.nodup_dedup)
  have := Nat.lt_of_le_of_lt hle hlt
  simpa [List.length_map] using this

/-- Claim C10: when `photoIds` contains a duplicate id, the add-photos
ownership check counts the distinct owned documents against the longer
id list, so the counts mismatch and the whole call is rejected with
HTTP 400 and no mutation — even though the requester owns every listed
photo. -/
theorem addPhotos_rejects_duplicate_ids (st : State) (aid r : String)
    (pids : List String) (album0 : Album) (hwf : WF st)
    (hfind : findAlbum st aid = some album0) (hown : album0.createdBy = r)
    (hdup : ¬ pids.Nodup)
    (howned : ∀ pid ∈ pids, ∃ p, p ∈ st.photos ∧ p.id = pid ∧ p.uploadedBy = r) :
    addPhotosRoute st aid r pids = (400, st) := by
  have hlt := ownedPhotosIn_length_lt_of_dup st pids r hwf.photosNodup hdup
  unfold addPhotosRoute
  rw [hfind]
  simp [hown, Nat.ne_of_lt hlt]

/-- Witness for C10: alice owns `p1` and her album, yet
`addPhotos(a1, alice, [p1, p1])` is rejected with 400 and no mutation. -/
theorem addPhotos_rejects_duplicate_ids_witness :
    addPhotosRoute stAlbum "a1" "alice" ["p1", "p1"] = (400, stAlbum) :=
  addPhotos_rejects_duplicate_ids stAlbum "a1" "alice" ["p1", "p1"] albEmpty
    ⟨by decide, by decide, by decide⟩ (by decide) (by decide) (by decide)
    (by
      intro pid hpid
      have hp : pid = "p1" := by
        rcases List.mem_cons.mp hpid with h | h
        · exact h
        · simpa using h
      subst hp
      exact ⟨pSunset, by decide, by decide, by decide⟩)

/-- Claim C5 (amended): for add-photos and for album creation with an
initial photo set, one listed id that resolves to no photo owned by the
requester fails the whole call with HTTP 400 and no mutation.  (The
remove-photos route performs no such check on `photoIds` — see the
counterexample.) -/
theorem album_calls_reject_unowned_photo (st : State) (aid r title : String)
    (d : Option String) (naid : String) (pids : List String) (album0 : Album)
    (bad : String) (hwf : WF st) (hfind : findAlbum st aid = some album0)
    (hown : album0.createdBy = r) (htitle : 1 ≤ title.length)
    (hbad : bad ∈ pids)
    (hno : ¬ ∃ p, p ∈ st.photos ∧ p.id = bad ∧ p.uploadedBy = r) :
    addPhotosRoute st aid r pids = (400, st) ∧
    createAlbumRoute st r title d (some pids) naid = (400, st) := by
  have hlt := ownedPhotosIn_length_lt_of_unowned st pids r bad
    hwf.photosNodup hbad hno
  constructor
  · unfold addPhotosRoute
    rw [hfind]
    simp [hown, Nat.ne_of_lt hlt]
  · unfold createAlbumRoute
    simp [Nat.not_lt.mpr htitle, List.ne_nil_of_mem hbad, Nat.ne_of_lt hlt]

/-- Witness for C5: adding the unknown id `px` to the album, and creating
an album listing `px`, both fail with 400 and leave the state intact. -/
theorem album_calls_reject_unowned_photo_witness :
    addPhotosRoute stAlbum "a1" "alice" ["p1", "px"] = (400, stAlbum) ∧
    createAlbumRoute stAlbum "alice" "Trip" none (some ["p1", "px"]) "a2"
      = (400, stAlbum) :=
  album_calls_reject_unowned_photo stAlbum "a1" "alice" "Trip" none "a2"
    ["p1", "px"] albEmpty "px" ⟨by decide, by decide, by decide⟩
    (by decide) (by decide) (by decide) (by decide)
    (by
      rintro ⟨p, hp, hid, _⟩
      have hp0 : p ∈ [pSunset] := hp
      have hp1 : p = pSunset := by simpa using hp0
      rw [hp1] at hid
      exact absurd hid (by decide))

/-- Claim C5 counterexample: remove-photos does not verify ownership of
the listed photo ids; with an id that resolves to no photo at all the
call still succeeds with HTTP 200 instead of failing with a client
error. -/
theorem removePhotos_no_ownership_check_cex :
    (∀ p ∈ stAlbumP1.photos, p.id ≠ "px") ∧
    (removePhotosRoute stAlbumP1 "a1" "alice" ["px"]).1 = 200 := by
  exact ⟨by decide, by decide⟩

/-- Replacing one album in the collection by an update with the same id
commutes with the find-by-id. -/
theorem findAlbum_map_replace (albums : List Album) (aid : String)
    (album0 newAlbum : Album)
    (hfind : albums.find? (fun a => a.id == aid) = some album0)
    (hid : newAlbum.id = album0.id) :
    (albums.map (fun a => if a.id == aid then newAlbum else a)).find?
      (fun a => a.id == aid) = some newAlbum := by
  have haid : (album0.id == aid) = true := by
    have h2 := List.find?_some hfind
    simpa using h2
  have haid' : album0.id = aid := by simpa using haid
  rw [List.find?_map]
  have hpred : ((fun a : Album => a.id == aid) ∘
      (fun a : Album => if a.id == aid then newAlbum else a))
      = fun a : Album => a.id == aid := by
    funext a
    by_cases ha : (a.id == aid) = true
    · have ha1 : a.id = aid := by simpa using ha
      simp [ha1, hid, haid']
    · simp [Function.comp, ha]
  rw [hpred, hfind]
  simp [haid, hid, haid']

/-- Claim C6: when remove-photos removes a set containing the current
cover photo, the cover afterwards is the first remaining member of the
membership list, or null when the album is left empty (the head of the
filtered list); removing the sole photo of a one-photo album leaves the
membership empty and the cover null. -/
theorem removePhotos_rederives_cover (st : State) (aid r : String)
    (pids : List String) (album0 : Album) (c : String)
    (hfind : findAlbum st aid = some album0) (hown : album0.createdBy = r)
    (hcov : album0.coverPhoto = some c) (hc : pids.contains c = true) :
    (removePhotosRoute st aid r pids).1 = 200 ∧
    ∃ album1, findAlbum (removePhotosRoute st aid r pids).2 aid = some album1 ∧
      album1.photos = album0.photos.filter (fun pid => !(pids.contains pid)) ∧
      album1.coverPhoto
        = (album0.photos.filter (fun pid => !(pids.contains pid))).head? := by
  have hres : removePhotosRoute st aid r pids
      = (200,
         { st with
            albums := st.albums.map (fun a =>
              if a.id == aid then
                { album0 with
                    photos := album0.photos.filter (fun pid => !(pids.contains pid))
                    coverPhoto :=
                      (album0.photos.filter (fun pid => !(pids.contains pid))).head? }
              else a)
            photos := st.photos.map (fun p =>
              if pids.contains p.id then
                { p with albums := p.albums.filter (fun x => x != aid) }
              else p) }) := by
    unfold removePhotosRoute
    rw [hfind]
    have hc' : c ∈ pids := by simpa using hc
    simp [hown, hcov, hc, hc']
  refine ⟨by rw [hres], ?_⟩
  rw [hres]
  refine ⟨{ album0 with
      photos := album0.photos.filter (fun pid => !(pids.contains pid))
      coverPhoto := (album0.photos.filter (fun pid => !(pids.contains pid))).head? },
    ?_, rfl, rfl⟩
  unfold findAlbum
  exact findAlbum_map_replace st.albums aid album0 _ hfind rfl

/-- Witness for C6: the one-photo album scenario — removing `p1`, its
sole member and cover, leaves the membership empty and the cover null. -/
theorem removePhotos_rederives_cover_witness :
    (removePhotosRoute stAlbumP1 "a1" "alice" ["p1"]).1 = 200 ∧
    ∃ album1, findAlbum (removePhotosRoute stAlbumP1 "a1" "alice" ["p1"]).2 "a1"
        = some album1 ∧
      album1.photos
        = albWithP1.photos.filter (fun pid => !(["p1"].contains pid)) ∧
      album1.coverPhoto
        = (albWithP1.photos.filter (fun pid => !(["p1"].contains pid))).head? :=
  removePhotos_rederives_cover stAlbumP1 "a1" "alice" ["p1"] albWithP1 "p1"
    (by decide) (by decide) (by decide) (by decide)

/-- Re-saving an album with nothing appended and the cover re-matched is
the identity. -/
theorem album_update_noop (a : Album) :
    { a with
        photos := a.photos ++ ([] : List String)
        coverPhoto :=
          match a.coverPhoto with
          | some c => some c
          | none => ([] : List String).head? } = a := by
  cases a with
  | mk i t d cb ph cv => cases cv <;> simp

/-- A second add-photos call whose ids are all already members changes
nothing: the dedup filter empties and the re-save is the identity. -/
theorem addPhotos_noop (st2 : State) (aid r : String) (pids : List String)
    (album1 : Album) (hfind1 : findAlbum st2 aid = some album1)
    (hown1 : album1.createdBy = r)
    (hcnt1 : (ownedPhotosIn st2 pids r).length = pids.length)
    (hall : ∀ pid ∈ pids, pid ∈ album1.photos)
    (hkey : ∀ a ∈ st2.albums, a.id = aid → a = album1) :
    addPhotosRoute st2 aid r pids = (200, st2) := by
  have hnil : pids.filter (fun pid => !(album1.photos.contains pid)) = [] := by
    rw [List.filter_eq_nil_iff]
    intro pid hpid
    simp [hall pid hpid]
  unfold addPhotosRoute
  rw [hfind1]
  dsimp only
  rw [if_neg (show ¬ (album1.createdBy ≠ r) from fun hh => hh hown1)]
  rw [if_neg (show ¬ ((ownedPhotosIn st2 pids r).length ≠ pids.length) from
    fun hh => hh hcnt1)]
  simp only [hnil]
  simp only [album_update_noop]
  have halbs : st2.albums.map (fun a => if a.id == aid then album1 else a)
      = st2.albums := by
    have h1 : st2.albums.map (fun a => if a.id == aid then album1 else a)
        = st2.albums.map id :=
      List.map_congr_left (fun a ha => by
        by_cases hb : (a.id == aid) = true
        · simp [hb, hkey a ha (by simpa using hb)]
        · simp [hb])
    simpa using h1
  have hphs : st2.photos.map (fun p =>
      if ([] : List String).contains p.id then { p with albums := p.albums ++ [aid] }
      else p) = st2.photos := by
    have h1 : st2.photos.map (fun p =>
        if ([] : List String).contains p.id then { p with albums := p.albums ++ [aid] }
        else p) = st2.photos.map id :=
      List.map_congr_left (fun p _ => by simp)
    simpa using h1
  rw [halbs, hphs]

/-- Claim C4: with a duplicate-free set of photo ids all owned by the
requester, add-photos succeeds; calling it twice with the same set
yields exactly the same state — in particular the same membership list
— the membership has no duplicates, and when the cover photo was unset
and at least one id was new, the cover photo is set afterwards. -/
theorem addPhotos_idempotent (st : State) (aid r : String) (pids : List String)
    (album0 : Album) (hwf : WF st)
    (hfind : findAlbum st aid = some album0) (hown : album0.createdBy = r)
    (hnd : pids.Nodup)
    (howned : ∀ pid ∈ pids, ∃ p, p ∈ st.photos ∧ p.id = pid ∧ p.uploadedBy = r) :
    (addPhotosRoute st aid r pids).1 = 200 ∧
    addPhotosRoute (addPhotosRoute st aid r pids).2 aid r pids
      = (200, (addPhotosRoute st aid r pids).2) ∧
    ∃ album1, findAlbum (addPhotosRoute st aid r pids).2 aid = some album1 ∧
      album1.photos
        = album0.photos ++ pids.filter (fun pid => !(album0.photos.contains pid)) ∧
      album1.photos.Nodup ∧
      (album0.coverPhoto = none →
        pids.filter (fun pid => !(album0.photos.contains pid)) ≠ [] →
        album1.coverPhoto ≠ none) := by
  have hcnt : (ownedPhotosIn st pids r).length = pids.length :=
    ownedPhotosIn_length_eq st pids r hwf.photosNodup hnd howned
  have hres1 : addPhotosRoute st aid r pids
      = (200, addedState st aid album0 pids) := by
    unfold addPhotosRoute addedState addedAlbum
    rw [hfind]
    dsimp only
    rw [if_neg (show ¬ (album0.createdBy ≠ r) from fun hh => hh hown)]
    rw [if_neg (show ¬ ((ownedPhotosIn st pids r).length ≠ pids.length) from
      fun hh => hh hcnt)]
  have hA0mem : album0 ∈ st.albums := List.mem_of_find?_eq_some hfind
  have hA0nd : album0.photos.Nodup := hwf.albumPhotosNodup album0 hA0mem
  have hNnd : (pids.filter (fun pid => !(album0.photos.contains pid))).Nodup :=
    hnd.filter _
  have hdisj : album0.photos.Disjoint
      (pids.filter (fun pid => !(album0.photos.contains pid))) := by
    intro x hx hxf
    have hpf := List.of_mem_filter hxf
    simp at hpf
    exact hpf hx
  have happnd : (album0.photos
      ++ pids.filter (fun pid => !(album0.photos.contains pid))).Nodup :=
    hA0nd.append hNnd hdisj
  have hsubset : ∀ pid ∈ pids, pid ∈ album0.photos
      ++ pids.filter (fun x => !(album0.photos.contains x)) := by
    intro pid hpid
    by_cases hm : pid ∈ album0.photos
    · exact List.mem_append_left _ hm
    · refine List.mem_append_right _ (List.mem_filter.mpr ⟨hpid, ?_⟩)
      simp [hm]
  have halb1 : findAlbum (addPhotosRoute st aid r pids).2 aid
      = some (addedAlbum album0 pids) := by
    rw [hres1]
    unfold findAlbum addedState
    exact findAlbum_map_replace st.albums aid album0 _ hfind rfl
  have hlen1 : (ownedPhotosIn (addPhotosRoute st aid r pids).2 pids r).length
      = pids.length := by
    rw [hres1]
    unfold ownedPhotosIn addedState
    dsimp only
    rw [List.filter_map, List.length_map]
    have hco : ((fun p : Photo => pids.contains p.id && p.uploadedBy == r) ∘
        (fun p : Photo =>
          if (pids.filter (fun x => !(album0.photos.contains x))).contains p.id then
            { p with albums := p.albums ++ [aid] }
          else p)) = fun p : Photo => pids.contains p.id && p.uploadedBy == r := by
      funext p
      simp only [Function.comp]
      split <;> rfl
    rw [hco]
    exact hcnt
  have hkey1 : ∀ a ∈ (addPhotosRoute st aid r pids).2.albums,
      a.id = aid → a = addedAlbum album0 pids := by
    rw [hres1]
    dsimp only [addedState]
    intro a ha haid
    rcases List.mem_map.mp ha with ⟨b, hb, rfl⟩
    by_cases hbb : (b.id == aid) = true
    · simp [hbb]
    · exfalso
      simp only [hbb] at haid
      simp at haid
      exact hbb (by simp [haid])
  have hall1 : ∀ pid ∈ pids, pid ∈ (addedAlbum album0 pids).photos := by
    intro pid hpid
    show pid ∈ album0.photos ++ pids.filter (fun x => !(album0.photos.contains x))
    exact hsubset pid hpid
  refine ⟨by rw [hres1], ?_, ?_⟩
  · exact addPhotos_noop (addPhotosRoute st aid r pids).2 aid r pids
      (addedAlbum album0 pids) halb1
      (show (addedAlbum album0 pids).createdBy = r from hown) hlen1 hall1 hkey1
  · refine ⟨addedAlbum album0 pids, halb1, rfl, ?_, ?_⟩
    · exact happnd
    · intro hcov hne
      show (match album0.coverPhoto with
        | some c => some c
        | none => (pids.filter (fun x => !(album0.photos.contains x))).head?) ≠ none
      rw [hcov]
      cases hxx : pids.filter (fun x => !(album0.photos.contains x)) with
      | nil => exact absurd hxx hne
      | cons a t => simp

/-- Witness for C4: adding `p1` to the empty album twice — the first call
succeeds, the second is a no-op, the membership is `[p1]` and the cover
becomes set. -/
theorem addPhotos_idempotent_witness :
    (addPhotosRoute stAlbum "a1" "alice" ["p1"]).1 = 200 ∧
    addPhotosRoute (addPhotosRoute stAlbum "a1" "alice" ["p1"]).2 "a1" "alice" ["p1"]
      = (200, (addPhotosRoute stAlbum "a1" "alice" ["p1"]).2) ∧
    ∃ album1, findAlbum (addPhotosRoute stAlbum "a1" "alice" ["p1"]).2 "a1"
        = some album1 ∧
      album1.photos
        = albEmpty.photos
          ++ ["p1"].filter (fun pid => !(albEmpty.photos.contains pid)) ∧
      album1.photos.Nodup ∧
      (albEmpty.coverPhoto = none →
        ["p1"].filter (fun pid => !(albEmpty.photos.contains pid)) ≠ [] →
        album1.coverPhoto ≠ none) :=
  addPhotos_idempotent stAlbum "a1" "alice" ["p1"] albEmpty
    ⟨by decide, by decide, by decide⟩ (by decide) (by decide) (by decide)
    (by
      intro pid hpid
      have hp : pid = "p1" := by simpa using hpid
      subst hp
      exact ⟨pSunset, by decide, by decide, by decide⟩)

/-- Over a state with unique photo ids, find-by-id locates each stored
document exactly. -/
theorem findPhoto_self (st : State) (p : Photo)
    (hwf : (st.photos.map Photo.id).Nodup) (hp : p ∈ st.photos) :
    findPhoto st p.id = some p :=
  find?_eq_of_key_nodup hwf hp

/-- A photo untouched by an operation satisfies the record invariants. -/
theorem invariantStep_self (st : State) (op : Op) (p' : Photo)
    (hwf : (st.photos.map Photo.id).Nodup) (hp : p' ∈ st.photos) :
    InvariantStep st op p' := by
  unfold InvariantStep
  refine ⟨by cases p'.processingStatus <;> simp, ?_⟩
  rw [findPhoto_self st p' hwf hp]
  exact ⟨rfl, Or.inl rfl, Or.inl rfl⟩

/-- A photo rewritten by an update that preserves id, owner, status and
thumbnail key satisfies the record invariants. -/
theorem invariantStep_mapped (st : State) (op : Op) (f : Photo → Photo)
    (hf : ∀ p, PhotoMeta p (f p))
    (hwf : (st.photos.map Photo.id).Nodup) (p0 : Photo) (h0 : p0 ∈ st.photos) :
    InvariantStep st op (f p0) := by
  obtain ⟨hid, hub, hst, htk⟩ := hf p0
  unfold InvariantStep
  refine ⟨by cases (f p0).processingStatus <;> simp, ?_⟩
  rw [hid, findPhoto_self st p0 hwf h0]
  exact ⟨hub, Or.inl hst.symm, Or.inl htk⟩

/-- Claim C9: every photo record carries a processing status drawn from
the schema enum; across all embedded operations the status only ever
moves along `pending → processing → completed / failed` (in this code it
never moves at all: it stays `pending`), the thumbnail key is set only by
a successful derivation (at upload or reprocess), and the owner reference
of an existing record never changes. -/
theorem photo_record_invariants (st : State) (op : Op) (p' : Photo)
    (hwf : WF st) (hfresh : opFresh st op)
    (hmem : p' ∈ (applyOp st op).photos) :
    InvariantStep st op p' := by
  have hnd := hwf.photosNodup
  cases op with
  | upload u t d f k l n ok =>
      dsimp only [opFresh] at hfresh
      dsimp only [applyOp] at hmem
      unfold uploadRoute at hmem
      cases f with
      | none =>
          dsimp only at hmem
          split at hmem
          · exact invariantStep_self st _ p' hnd hmem
          · exact invariantStep_self st _ p' hnd hmem
      | some ff =>
          dsimp only at hmem
          split at hmem
          · exact invariantStep_self st _ p' hnd hmem
          · split at hmem
            · exact invariantStep_self st _ p' hnd hmem
            · split at hmem
              · exact invariantStep_self st _ p' hnd hmem
              · cases ok with
                | true =>
                    dsimp only [processImage] at hmem
                    rcases List.mem_append.mp hmem with hL | hR
                    · exact invariantStep_self st _ p' hnd hL
                    · rw [List.mem_singleton] at hR
                      subst hR
                      have hnone : findPhoto st n = none := by
                        unfold findPhoto
                        rw [List.find?_eq_none]
                        intro x hx
                        simp [hfresh x hx]
                      unfold InvariantStep
                      dsimp only
                      rw [hnone]
                      exact ⟨Or.inl rfl, rfl,
                        Or.inr ⟨thumbnailKeyOf k, rfl, rfl⟩⟩
                | false =>
                    dsimp only [processImage] at hmem
                    rcases List.mem_append.mp hmem with hL | hR
                    · exact invariantStep_self st _ p' hnd hL
                    · rw [List.mem_singleton] at hR
                      subst hR
                      have hnone : findPhoto st n = none := by
                        unfold findPhoto
                        rw [List.find?_eq_none]
                        intro x hx
                        simp [hfresh x hx]
                      unfold InvariantStep
                      dsimp only
                      rw [hnone]
                      exact ⟨Or.inl rfl, rfl, Or.inl rfl⟩
  | reprocess pid r ok =>
      dsimp only [applyOp] at hmem
      unfold reprocessRoute at hmem
      cases hfind : findPhoto st pid with
      | none =>
          rw [hfind] at hmem
          dsimp only at hmem
          exact invariantStep_self st _ p' hnd hmem
      | some photo =>
          rw [hfind] at hmem
          dsimp only at hmem
          split at hmem
          · exact invariantStep_self st _ p' hnd hmem
          · cases ok with
            | false =>
                dsimp only [processImage] at hmem
                exact invariantStep_self st _ p' hnd hmem
            | true =>
                dsimp only [processImage] at hmem
                rcases List.mem_map.mp hmem with ⟨p0, hp0, rfl⟩
                by_cases hpp : (p0.id == pid) = true
                · rw [if_pos hpp]
                  have hid0 : photo.id = pid := by
                    have h2 := List.find?_some
                      (show st.photos.find? (fun q => q.id == pid) = some photo
                        from hfind)
                    simpa using h2
                  unfold InvariantStep
                  dsimp only
                  refine ⟨by cases photo.processingStatus <;> simp, ?_⟩
                  rw [hid0, hfind]
                  refine ⟨rfl, Or.inl rfl,
                    Or.inr ⟨thumbnailKeyOf photo.s3Key, ?_, rfl⟩⟩
                  dsimp only [opDerivedKey]
                  rw [hfind]
                  rfl
                · rw [if_neg hpp]
                  exact invariantStep_self st _ p0 hnd hp0
  | deletePhoto pid r ok =>
      dsimp only [applyOp] at hmem
      unfold deletePhotoRoute at hmem
      cases hfind : findPhoto st pid with
      | none =>
          rw [hfind] at hmem
          dsimp only at hmem
          exact invariantStep_self st _ p' hnd hmem
      | some photo =>
          rw [hfind] at hmem
          dsimp only at hmem
          split at hmem
          · exact invariantStep_self st _ p' hnd hmem
          · exact invariantStep_self st _ p' hnd (List.mem_of_mem_filter hmem)
  | createAlbum r t d pids naid =>
      dsimp only [applyOp] at hmem
      unfold createAlbumRoute at hmem
      dsimp only at hmem
      split at hmem
      · exact invariantStep_self st _ p' hnd hmem
      · split at hmem
        · exact invariantStep_self st _ p' hnd hmem
        · rcases List.mem_map.mp hmem with ⟨p0, hp0, rfl⟩
          refine invariantStep_mapped st _ (fun p =>
            if (pids.getD []).contains p.id then
              { p with albums := p.albums ++ [naid] }
            else p) ?_ hnd p0 hp0
          intro p
          unfold PhotoMeta
          dsimp only
          split <;> exact ⟨rfl, rfl, rfl, rfl⟩
  | addPhotos aid r pids =>
      dsimp only [applyOp] at hmem
      unfold addPhotosRoute at hmem
      cases hfind : findAlbum st aid with
      | none =>
          rw [hfind] at hmem
          dsimp only at hmem
          exact invariantStep_self st _ p' hnd hmem
      | some album =>
          rw [hfind] at hmem
          dsimp only at hmem
          split at hmem
          · exact invariantStep_self st _ p' hnd hmem
          · split at hmem
            · exact invariantStep_self st _ p' hnd hmem
            · rcases List.mem_map.mp hmem with ⟨p0, hp0, rfl⟩
              refine invariantStep_mapped st _ (fun p =>
                if (pids.filter
                    (fun pid => !(album.photos.contains pid))).contains p.id then
                  { p with albums := p.albums ++ [aid] }
                else p) ?_ hnd p0 hp0
              intro p
              unfold PhotoMeta
              dsimp only
              split <;> exact ⟨rfl, rfl, rfl, rfl⟩
  | removePhotos aid r pids =>
      dsimp only [applyOp] at hmem
      unfold removePhotosRoute at hmem
      cases hfind : findAlbum st aid with
      | none =>
          rw [hfind] at hmem
          dsimp only at hmem
          exact invariantStep_self st _ p' hnd hmem
      | some album =>
          rw [hfind] at hmem
          dsimp only at hmem
          split at hmem
          · exact invariantStep_self st _ p' hnd hmem
          · rcases List.mem_map.mp hmem with ⟨p0, hp0, rfl⟩
            refine invariantStep_mapped st _ (fun p =>
              if pids.contains p.id then
                { p with albums := p.albums.filter (fun x => x != aid) }
              else p) ?_ hnd p0 hp0
            intro p
            unfold PhotoMeta
            dsimp only
            split <;> exact ⟨rfl, rfl, rfl, rfl⟩
  | deleteAlbum aid r =>
      dsimp only [applyOp] at hmem
      unfold deleteAlbumRoute at hmem
      cases hfind : findAlbum st aid with
      | none =>
          rw [hfind] at hmem
          dsimp only at hmem
          exact invariantStep_self st _ p' hnd hmem
      | some album =>
          rw [hfind] at hmem
          dsimp only at hmem
          split at hmem
          · exact invariantStep_self st _ p' hnd hmem
          · rcases List.mem_map.mp hmem with ⟨p0, hp0, rfl⟩
            refine invariantStep_mapped st _ (fun p =>
              if album.photos.contains p.id then
                { p with albums := p.albums.filter (fun x => x != aid) }
              else p) ?_ hnd p0 hp0
            intro p
            unfold PhotoMeta
            dsimp only
            split <;> exact ⟨rfl, rfl, rfl, rfl⟩

/-- Witness for C9: the record reprocessing leaves behind satisfies the
invariants — same owner, status still pending, thumbnail key set by the
successful derivation. -/
theorem photo_record_invariants_witness :
    InvariantStep stAlbumP1 (Op.reprocess "p1" "alice" true)
      { pSunset with thumbnailS3Key := some "photos/thumbnails/thumb_1-a.jpg" } :=
  photo_record_invariants stAlbumP1 (Op.reprocess "p1" "alice" true)
    { pSunset with thumbnailS3Key := some "photos/thumbnails/thumb_1-a.jpg" }
    ⟨by decide, by decide, by decide⟩ trivial (by decide)

end PixelBoard
